import Mathlib

/-!
Verification of the reconciliation core of the Takaro Kubernetes operator.

The TypeScript sources are shallowly embedded: pure functions become Lean
functions, effectful controller code becomes functions taking the outcomes of
the remote calls as explicit parameters, and the JavaScript event loop driving
the reconcile queue becomes an explicit labelled transition function.

Source files embedded here:
  * `src/utils/status-updater.ts`   (condition upsert logic)
  * `src/controllers/base-controller.ts` (reconcile queue, drain loop, getResource)
  * `src/services/takaro-client.ts` (retry wrapper, delete semantics)
  * `src/controllers/domain-controller.ts` (domain reconciler state machine)
-/

/-! ## Condition model (`src/utils/status-updater.ts`) -/

/-- Mirrors the `Condition` interface of `src/utils/status-updater.ts`:
`{type, status, lastTransitionTime, reason, message}`.  The TypeScript status
is the string union `'True' | 'False' | 'Unknown'`; it is kept as `String`. -/
structure Condition where
  type : String
  status : String
  lastTransitionTime : String
  reason : String
  message : String
  deriving Repr, DecidableEq, Inhabited

/-- Mirrors `StatusUpdater.updateCondition`.  The call
`new Date().toISOString()` is passed in as the explicit parameter `now`.
`findIndex` is `List.findIdx?`, the `-1` case is `none`, and the
`slice`/splice rebuild is `take ++ [final] ++ drop`. -/
def updateCondition (conditions : List Condition) (type status reason message : String)
    (now : String) : List Condition :=
  let newCondition : Condition :=
    { type := type, status := status, reason := reason, message := message,
      lastTransitionTime := now }
  match conditions.findIdx? (fun c => c.type == type) with
  | none => conditions ++ [newCondition]
  | some existingIndex =>
    let existing := conditions.getD existingIndex newCondition
    let hasChanged := existing.status != status || existing.reason != reason
    let final := if hasChanged then newCondition
      else { newCondition with lastTransitionTime := existing.lastTransitionTime }
    conditions.take existingIndex ++ [final] ++ conditions.drop (existingIndex + 1)

/-- Mirrors `StatusUpdater.getCondition`: first condition of the given type. -/
def getCondition (conditions : List Condition) (type : String) : Option Condition :=
  conditions.find? (fun c => c.type == type)

/-- Unfolding of `updateCondition` on a cons cell; this is exactly the
behaviour of the `findIndex`-and-splice implementation, case split on whether
the head already carries the requested type. -/
theorem updateCondition_cons (c : Condition) (rest : List Condition)
    (type status reason message now : String) :
    updateCondition (c :: rest) type status reason message now =
      if c.type = type then
        (if c.status = status ∧ c.reason = reason then
          { type := type, status := status, reason := reason, message := message,
            lastTransitionTime := c.lastTransitionTime }
         else
          { type := type, status := status, reason := reason, message := message,
            lastTransitionTime := now }) :: rest
      else c :: updateCondition rest type status reason message now := by
  by_cases h : c.type = type
  · simp only [updateCondition, List.findIdx?_cons, h, beq_self_eq_true, if_true,
      List.getD, List.getElem?_cons_zero, Option.getD_some, List.take_zero,
      List.drop_succ_cons, List.drop_zero, List.nil_append, List.singleton_append]
    by_cases hs : c.status = status
    · by_cases hr : c.reason = reason
      · simp [hs, hr]
      · simp [hs, hr, bne_iff_ne]
    · by_cases hr : c.reason = reason <;> simp [hs, hr, bne_iff_ne]
  · have hb : (c.type == type) = false := by simp [h]
    simp only [updateCondition, List.findIdx?_cons, hb, if_false]
    cases hfind : rest.findIdx? (fun x => x.type == type) with
    | none => simp [hfind, h, List.cons_append]
    | some i =>
      simp [hfind, h, List.getD, List.take_succ_cons, List.drop_succ_cons, List.cons_append]

/-- If no condition of the requested type is present, `updateCondition`
appends a fresh condition stamped with `now`. -/
theorem updateCondition_absent (conds : List Condition)
    (type status reason message now : String)
    (h : ∀ c ∈ conds, c.type ≠ type) :
    updateCondition conds type status reason message now =
      conds ++ [{ type := type, status := status, reason := reason,
                  message := message, lastTransitionTime := now }] := by
  induction conds with
  | nil => simp [updateCondition]
  | cons c rest ih =>
    have hc : c.type ≠ type := h c (List.mem_cons_self c rest)
    rw [updateCondition_cons, if_neg hc, ih (fun x hx => h x (List.mem_cons_of_mem c hx))]
    simp

/-- The condition of the requested type after `updateCondition`: all fields
are overwritten, and `lastTransitionTime` is preserved exactly when both
`status` and `reason` are unchanged. -/
theorem updateCondition_found (conds : List Condition)
    (type status reason message now : String) (ex : Condition)
    (h : getCondition conds type = some ex) :
    getCondition (updateCondition conds type status reason message now) type =
      some { type := type, status := status, reason := reason, message := message,
             lastTransitionTime :=
               if ex.status = status ∧ ex.reason = reason then ex.lastTransitionTime
               else now } := by
  induction conds with
  | nil => simp [getCondition] at h
  | cons c rest ih =>
    by_cases hc : c.type = type
    · have hex : c = ex := by
        simpa [getCondition, List.find?_cons, hc] using h
      subst hex
      rw [updateCondition_cons, if_pos hc]
      by_cases hk : c.status = status ∧ c.reason = reason
      · simp [getCondition, List.find?_cons, hk]
      · simp [getCondition, List.find?_cons, hk]
    · have h' : getCondition rest type = some ex := by
        simpa [getCondition, List.find?_cons, hc] using h
      rw [updateCondition_cons, if_neg hc]
      simpa [getCondition, List.find?_cons, hc] using ih h'

/-- Applying the same `(type, status, reason, message)` a second time changes
nothing: in particular every `lastTransitionTime` of the first application is
kept verbatim by the second. -/
theorem updateCondition_idem (conds : List Condition)
    (type status reason message now nowLater : String) :
    updateCondition (updateCondition conds type status reason message now)
        type status reason message nowLater =
      updateCondition conds type status reason message now := by
  induction conds with
  | nil =>
    have h0 : updateCondition [] type status reason message now =
        [{ type := type, status := status, reason := reason, message := message,
           lastTransitionTime := now }] := by
      simp [updateCondition]
    rw [h0, updateCondition_cons]
    simp
  | cons c rest ih =>
    by_cases hc : c.type = type
    · rw [updateCondition_cons, if_pos hc]
      by_cases hk : c.status = status ∧ c.reason = reason
      · rw [if_pos hk, updateCondition_cons]
        simp
      · rw [if_neg hk, updateCondition_cons]
        simp
    · rw [updateCondition_cons, if_neg hc, updateCondition_cons, if_neg hc, ih]

/-- C1, counterexample.  The claim states that when a condition of the given
type exists and its status equals the new status, the original
`lastTransitionTime` is preserved even when only `reason` changes.  In the
code `hasChanged` also compares `reason`, so changing only the reason (status
unchanged) replaces `lastTransitionTime` with `now`: starting from a Ready
condition stamped `"t0"` with reason `"A"`, updating to reason `"B"` at time
`"t1"` yields `lastTransitionTime = "t1"`, not `"t0"`. -/
theorem c1_reason_only_change_bumps_time :
    (getCondition
        (updateCondition
          [{ type := "Ready", status := "True", lastTransitionTime := "t0",
             reason := "A", message := "m" }]
          "Ready" "True" "B" "m" "t1")
        "Ready").map Condition.lastTransitionTime = some "t1"
      ∧ ("t1" : String) ≠ "t0" := by
  exact ⟨rfl, by decide⟩

/-- C1, amended.  `updateCondition(conditions, type, status, reason, message)`
behaves as claimed except that `lastTransitionTime` is preserved exactly when
both `status` AND `reason` are unchanged (changing only `reason` also bumps
it): if no condition of the type exists the result appends a new condition
stamped `now`; if one exists, its replacement keeps the original
`lastTransitionTime` iff status and reason both match, and is stamped `now`
otherwise (in particular whenever `status` differs); and applying the same
`(type, status, reason, message)` twice yields identical `lastTransitionTime`
on both applications (the second application is the identity). -/
theorem c1_updateCondition_amended (conds : List Condition)
    (type status reason message now nowLater : String) :
    ((∀ c ∈ conds, c.type ≠ type) →
      updateCondition conds type status reason message now =
        conds ++ [{ type := type, status := status, reason := reason,
                    message := message, lastTransitionTime := now }])
    ∧ (∀ ex, getCondition conds type = some ex →
        getCondition (updateCondition conds type status reason message now) type =
          some { type := type, status := status, reason := reason, message := message,
                 lastTransitionTime :=
                   if ex.status = status ∧ ex.reason = reason then ex.lastTransitionTime
                   else now })
    ∧ updateCondition (updateCondition conds type status reason message now)
          type status reason message nowLater =
        updateCondition conds type status reason message now :=
  ⟨updateCondition_absent conds type status reason message now,
   fun ex h => updateCondition_found conds type status reason message now ex h,
   updateCondition_idem conds type status reason message now nowLater⟩

/-- C1 witness: the amended theorem applied at concrete inputs — an append on
an empty list, a message-only update preserving `"t0"`, and a repeated
identical update being the identity. -/
theorem c1_updateCondition_amended_witness :
    updateCondition [] "Ready" "True" "Up" "ok" "t1" =
      [{ type := "Ready", status := "True", reason := "Up", message := "ok",
         lastTransitionTime := "t1" }]
    ∧ getCondition
        (updateCondition
          [{ type := "Ready", status := "True", lastTransitionTime := "t0",
             reason := "Up", message := "old" }]
          "Ready" "True" "Up" "new" "t1") "Ready" =
        some { type := "Ready", status := "True", reason := "Up", message := "new",
               lastTransitionTime := "t0" }
    ∧ updateCondition
        (updateCondition
          [{ type := "Ready", status := "False", lastTransitionTime := "t0",
             reason := "Down", message := "old" }]
          "Ready" "True" "Up" "ok" "t1")
        "Ready" "True" "Up" "ok" "t2" =
      updateCondition
        [{ type := "Ready", status := "False", lastTransitionTime := "t0",
           reason := "Down", message := "old" }]
        "Ready" "True" "Up" "ok" "t1" := by
  refine ⟨(c1_updateCondition_amended [] "Ready" "True" "Up" "ok" "t1" "t2").1
      (by simp), ?_, (c1_updateCondition_amended
        [{ type := "Ready", status := "False", lastTransitionTime := "t0",
           reason := "Down", message := "old" }]
        "Ready" "True" "Up" "ok" "t1" "t2").2.2⟩
  have h := (c1_updateCondition_amended
      [{ type := "Ready", status := "True", lastTransitionTime := "t0",
         reason := "Up", message := "old" }]
      "Ready" "True" "Up" "new" "t1" "t2").2.1
      { type := "Ready", status := "True", lastTransitionTime := "t0",
        reason := "Up", message := "old" } rfl
  simpa using h

/-! ## Reconcile queue (`src/controllers/base-controller.ts`) -/

/-- Kubernetes object metadata with the fields the controller reads.
`nspace` mirrors `metadata.namespace` (a Lean keyword).  `name` is kept as a
plain string — it is present on every real object, and `""` plays the role of
a missing value in the code's falsy guards — while the remaining fields are
optional exactly as in `V1ObjectMeta`. -/
structure ObjectMeta where
  nspace : Option String := none
  name : String := ""
  uid : Option String := none
  resourceVersion : Option String := none
  generation : Option Nat := none
  deletionTimestamp : Option String := none
  finalizers : Option (List String) := none
  deriving Repr, DecidableEq, Inhabited

/-- JavaScript truthiness of an optional string: `undefined` and `""` are
falsy, everything else truthy. -/
def jsTruthy : Option String → Bool
  | none => false
  | some s => s != ""

/-- Mirrors `ReconcileRequest` of `src/controllers/base-controller.ts`;
`nspace` mirrors the `namespace` field. -/
structure ReconcileRequest where
  nspace : String := ""
  name : String := ""
  resourceVersion : Option String := none
  deriving Repr, DecidableEq, Inhabited

/-- JavaScript `Map.set`: overwrite in place if the key is present (keys are
unique in a `Map`), append otherwise; insertion order is preserved. -/
def jsSet {α : Type} : List (String × α) → String → α → List (String × α)
  | [], k, v => [(k, v)]
  | p :: rest, k, v => if p.1 = k then (k, v) :: rest else p :: jsSet rest k v

/-- JavaScript `Map.delete`: drop the entry with the given key. -/
def jsDelete {α : Type} : List (String × α) → String → List (String × α)
  | [], _ => []
  | p :: rest, k => if p.1 = k then rest else p :: jsDelete rest k

/-- JavaScript `Map.get`. -/
def jsGet {α : Type} (m : List (String × α)) (k : String) : Option α :=
  (m.find? (fun p => p.1 == k)).map Prod.snd

/-- JavaScript `Map.values()` in insertion order. -/
def jsValues {α : Type} (m : List (String × α)) : List α := m.map Prod.snd

/-- The pending-map key computed by `enqueueReconcile`:
`obj.metadata.namespace ? namespace/name : name`. -/
def enqueueKey (m : ObjectMeta) : String :=
  if jsTruthy m.nspace then m.nspace.getD "" ++ "/" ++ m.name else m.name

/-- The request stored by `enqueueReconcile`:
`{namespace: obj.metadata.namespace || '', name, resourceVersion}`. -/
def requestOfMeta (m : ObjectMeta) : ReconcileRequest :=
  { nspace := m.nspace.getD "", name := m.name, resourceVersion := m.resourceVersion }

/-- Mirrors `BaseController.enqueueReconcile` (the `isDelete` flag only
logs): `this.reconcileQueue.set(key, request)`. -/
def enqueueReconcile (queue : List (String × ReconcileRequest)) (m : ObjectMeta) :
    List (String × ReconcileRequest) :=
  jsSet queue (enqueueKey m) (requestOfMeta m)

/-- The pending-map key as a function of the stored request; this is what the
map key of every entry produced by `enqueueReconcile` equals. -/
def storedKey (r : ReconcileRequest) : String :=
  if r.nspace ≠ "" then r.nspace ++ "/" ++ r.name else r.name

theorem enqueueKey_eq_storedKey (m : ObjectMeta) :
    enqueueKey m = storedKey (requestOfMeta m) := by
  cases h : m.nspace with
  | none => simp [enqueueKey, storedKey, requestOfMeta, jsTruthy, h]
  | some s =>
    by_cases hs : s = ""
    · simp [enqueueKey, storedKey, requestOfMeta, jsTruthy, h, hs]
    · simp [enqueueKey, storedKey, requestOfMeta, jsTruthy, h, hs]

theorem jsSet_countP_eq_one {α : Type} (m : List (String × α)) (k : String) (v : α)
    (hle : m.countP (fun p => p.1 == k) ≤ 1) :
    (jsSet m k v).countP (fun p => p.1 == k) = 1 := by
  induction m with
  | nil => simp [jsSet]
  | cons p rest ih =>
    by_cases hp : p.1 = k
    · have h0 : rest.countP (fun q => q.1 == k) = 0 := by
        rw [List.countP_cons] at hle
        simp only [hp, beq_self_eq_true, if_true] at hle
        omega
      simp [jsSet, hp, List.countP_cons, h0]
    · have hle' : rest.countP (fun q => q.1 == k) ≤ 1 := by
        rw [List.countP_cons] at hle
        omega
      simp [jsSet, hp, List.countP_cons, ih hle']

theorem jsSet_get_same {α : Type} (m : List (String × α)) (k : String) (v : α) :
    jsGet (jsSet m k v) k = some v := by
  induction m with
  | nil => simp [jsSet, jsGet]
  | cons p rest ih =>
    by_cases hp : p.1 = k
    · simp [jsSet, hp, jsGet]
    · simp [jsSet, hp, jsGet, List.find?_cons] at ih ⊢
      simpa [hp] using ih

theorem jsSet_wf {α : Type} (f : α → String) (m : List (String × α)) (k : String) (v : α)
    (hwf : ∀ p ∈ m, p.1 = f p.2) (hv : k = f v) :
    ∀ p ∈ jsSet m k v, p.1 = f p.2 := by
  induction m with
  | nil => simpa [jsSet] using hv
  | cons q rest ih =>
    by_cases hq : q.1 = k
    · intro p hp
      rcases List.mem_cons.mp (by simpa [jsSet, hq] using hp) with h | h
      · subst h; exact hv
      · exact hwf p (List.mem_cons_of_mem q h)
    · intro p hp
      rcases List.mem_cons.mp (by simpa [jsSet, hq] using hp) with h | h
      · subst h; exact hwf p (List.mem_cons_self p rest)
      · exact ih (fun x hx => hwf x (List.mem_cons_of_mem q hx)) p h

theorem foldl_enqueue_count_get
    (ms : List ObjectMeta) (queue : List (String × ReconcileRequest)) (k : String)
    (hle : queue.countP (fun p => p.1 == k) ≤ 1)
    (hne : ms ≠ [])
    (hk : ∀ m ∈ ms, enqueueKey m = k) :
    (ms.foldl enqueueReconcile queue).countP (fun p => p.1 == k) = 1
    ∧ jsGet (ms.foldl enqueueReconcile queue) k = some (requestOfMeta (ms.getLast hne)) := by
  induction ms generalizing queue with
  | nil => exact absurd rfl hne
  | cons m rest ih =>
    have hm : enqueueKey m = k := hk m (List.mem_cons_self m rest)
    cases rest with
    | nil =>
      refine ⟨?_, ?_⟩
      · simpa [enqueueReconcile, hm] using jsSet_countP_eq_one queue k (requestOfMeta m) hle
      · simpa [enqueueReconcile, hm] using jsSet_get_same queue k (requestOfMeta m)
    | cons m2 rest2 =>
      have hle2 : (enqueueReconcile queue m).countP (fun p => p.1 == k) ≤ 1 := by
        rw [enqueueReconcile, hm]
        exact le_of_eq (jsSet_countP_eq_one queue k (requestOfMeta m) hle)
      have hrec := ih (enqueueReconcile queue m) hle2 (by simp)
        (fun x hx => hk x (List.mem_cons_of_mem m hx))
      simpa [List.getLast_cons] using hrec

theorem foldl_enqueue_wf (ms : List ObjectMeta) (queue : List (String × ReconcileRequest))
    (hwf : ∀ p ∈ queue, p.1 = storedKey p.2) :
    ∀ p ∈ ms.foldl enqueueReconcile queue, p.1 = storedKey p.2 := by
  induction ms generalizing queue with
  | nil => exact hwf
  | cons m rest ih =>
    simp only [List.foldl_cons]
    exact ih (enqueueReconcile queue m)
      (jsSet_wf storedKey queue (enqueueKey m) (requestOfMeta m) hwf (enqueueKey_eq_storedKey m))

/-- C9, confirmed.  Enqueueing N ≥ 1 events that all share the reconcile key
`k` into a well-formed pending map (unique keys, each entry keyed by its
request) leaves exactly one entry for `k`, holding the request of the most
recent event, and the snapshot the next drain iterates over — one
`reconcile` invocation per snapshot entry — contains exactly one request
whose key is `k`. -/
theorem c9_enqueue_dedup_last_write_wins
    (queue : List (String × ReconcileRequest)) (ms : List ObjectMeta) (k : String)
    (hwf : ∀ p ∈ queue, p.1 = storedKey p.2)
    (hle : queue.countP (fun p => p.1 == k) ≤ 1)
    (hne : ms ≠ [])
    (hk : ∀ m ∈ ms, enqueueKey m = k) :
    (ms.foldl enqueueReconcile queue).countP (fun p => p.1 == k) = 1
    ∧ jsGet (ms.foldl enqueueReconcile queue) k = some (requestOfMeta (ms.getLast hne))
    ∧ ((jsValues (ms.foldl enqueueReconcile queue)).map storedKey).countP
        (fun s => s == k) = 1 := by
  obtain ⟨h1, h2⟩ := foldl_enqueue_count_get ms queue k hle hne hk
  refine ⟨h1, h2, ?_⟩
  have hwf2 := foldl_enqueue_wf ms queue hwf
  have hmap : (jsValues (ms.foldl enqueueReconcile queue)).map storedKey =
      (ms.foldl enqueueReconcile queue).map Prod.fst := by
    rw [jsValues, List.map_map]
    exact List.map_congr_left (fun p hp => (hwf2 p hp).symm)
  rw [hmap, List.countP_map]
  exact h1

/-- C9 witness: two bursts for key `default/example` (differing resource
versions) collapse to a single pending entry holding the second request, and
the next drain snapshot contains exactly one request for that key. -/
theorem c9_enqueue_dedup_last_write_wins_witness :
    ([{ nspace := some "default", name := "example", resourceVersion := some "1" },
      { nspace := some "default", name := "example", resourceVersion := some "2" }] :
        List ObjectMeta) ≠ []
    ∧ (([{ nspace := some "default", name := "example", resourceVersion := some "1" },
         { nspace := some "default", name := "example", resourceVersion := some "2" }] :
          List ObjectMeta).foldl enqueueReconcile []).countP
        (fun p => p.1 == "default/example") = 1 := by
  refine ⟨by simp, (c9_enqueue_dedup_last_write_wins []
    [{ nspace := some "default", name := "example", resourceVersion := some "1" },
     { nspace := some "default", name := "example", resourceVersion := some "2" }]
    "default/example" (by simp) (by simp) (by simp) ?_).1⟩
  decide

/-! ## Drain loop concurrency (`startReconcileLoop` / `processReconcileQueue`)

`startReconcileLoop` arms `setInterval(() => { void this.processReconcileQueue(); },
interval)`: the timer callback fires on every interval tick without awaiting the
promise of the previous drain, so a new `processReconcileQueue` run can start
while an earlier one is still awaiting `this.reconcile(...)`.  The JavaScript
event loop is modelled by explicit events: a timer `tick` (which synchronously
takes the snapshot `Array.from(this.reconcileQueue.values())`), an informer
callback running `enqueueReconcile`, a drain advancing to its next snapshot
entry (`this.reconcileQueue.delete(key)` followed by the `reconcile` call, the
synchronous prefix up to the first await), and a drain's awaited `reconcile`
resolving.  Each event is one synchronous slice of event-loop execution. -/

/-- One run of `processReconcileQueue`: the snapshot entries not yet
processed, and the key of the `reconcile` call currently being awaited. -/
structure DrainTask where
  remaining : List ReconcileRequest
  inflight : Option String := none
  deriving Repr, DecidableEq, Inhabited

/-- Queue-related controller state: the pending map plus the unfinished
drain runs started by timer ticks. -/
structure LoopState where
  queue : List (String × ReconcileRequest) := []
  drains : List DrainTask := []
  deriving Repr, DecidableEq, Inhabited

/-- Event-loop turns relevant to the reconcile queue. -/
inductive LoopEvent where
  | tick
  | informerEnqueue (m : ObjectMeta)
  | step (i : Nat)
  | finish (i : Nat)
  deriving Repr, DecidableEq

/-- The key `processReconcileQueue` recomputes for a snapshot request:
`` `${request.namespace}/${request.name}` ``. -/
def requestKey (r : ReconcileRequest) : String := r.nspace ++ "/" ++ r.name

/-- Apply one event-loop turn.  `tick` starts a drain over the current
snapshot; `step i` lets drain `i` (idle, snapshot nonempty) delete the next
key from the pending map and start awaiting its `reconcile`; `finish i`
resolves drain `i`'s awaited `reconcile`.  Inapplicable events are no-ops. -/
def applyEvent (s : LoopState) : LoopEvent → LoopState
  | .tick => { s with drains := s.drains ++ [{ remaining := jsValues s.queue }] }
  | .informerEnqueue m => { s with queue := enqueueReconcile s.queue m }
  | .step i =>
    match s.drains[i]? with
    | some d =>
      match d.inflight, d.remaining with
      | none, r :: rest =>
        { queue := jsDelete s.queue (requestKey r),
          drains := s.drains.set i { remaining := rest, inflight := some (requestKey r) } }
      | _, _ => s
    | none => s
  | .finish i =>
    match s.drains[i]? with
    | some d =>
      match d.inflight with
      | some _ => { s with drains := s.drains.set i { d with inflight := none } }
      | none => s
    | none => s

/-- Run a sequence of event-loop turns. -/
def applyEvents (s : LoopState) (es : List LoopEvent) : LoopState :=
  es.foldl applyEvent s

/-- C2, violation exhibited at a concrete trace.  An informer event enqueues
`default/example`; a timer tick starts drain 0, which begins reconciling the
key (removed from the pending map first, as the claim describes); while that
reconcile is still awaited, another informer update re-enqueues the key and
the next interval tick starts drain 1, which immediately begins a second
reconcile of the same key.  The final state has both drains in-flight on
`default/example`: two reconciles for one key executing concurrently, which
the claim says can never happen. -/
theorem c2_two_reconciles_in_flight :
    (applyEvents {}
      [LoopEvent.informerEnqueue { nspace := some "default", name := "example" },
       LoopEvent.tick,
       LoopEvent.step 0,
       LoopEvent.informerEnqueue { nspace := some "default", name := "example" },
       LoopEvent.tick,
       LoopEvent.step 1]).drains.map DrainTask.inflight =
      [some "default/example", some "default/example"] := by
  decide

/-! ## External service client (`src/services/takaro-client.ts`) -/

/-- An axios-style error as observed by `retryOperation` and
`calculateDelay`: `error.response?.status`, and the parsed value (seconds) of
`error.response?.headers?.['retry-after']`.  Both are absent for
connection-level failures that carry no HTTP response. -/
structure RemoteError where
  status : Option Nat := none
  retryAfter : Option Nat := none
  deriving Repr, DecidableEq, Inhabited

/-- The terminal-error test of `retryOperation`:
`statusCode && statusCode >= 400 && statusCode < 500 && statusCode !== 429`.
A missing status code is falsy, hence retryable. -/
def isTerminalStatus : Option Nat → Bool
  | none => false
  | some c => decide (400 ≤ c) && decide (c < 500) && c != 429

/-- Mirrors `TakaroClient.calculateDelay` (delays in milliseconds, as
rationals).  The random jitter `Math.random() * 0.1 * exponentialDelay` is
the explicit parameter `jitter`; a present `retry-after` header is used
instead, converted to milliseconds; either way the result is capped by
`Math.min(_, maxDelay)`. -/
def calculateDelay (attempt : Nat) (baseDelay maxDelay : ℚ) (jitter : ℚ)
    (error : RemoteError) : ℚ :=
  match error.retryAfter with
  | some retryAfter => min ((retryAfter : ℚ) * 1000) maxDelay
  | none => min (baseDelay * 2 ^ attempt + jitter) maxDelay

/-- The `for (let attempt = 0; attempt <= maxRetries; attempt++)` loop of
`TakaroClient.retryOperation`, from attempt number `attempt`, with
`remaining = maxRetries - attempt` further attempts allowed (`remaining = 0`
exactly when `attempt === maxRetries`, the `isLastAttempt` test).  `op n` is
the outcome of the n-th execution of `operation`; `jitter n` is the jitter
drawn on attempt `n`.  Returns the outcome, how many times `operation` ran,
and the backoff delays slept through, in order. -/
def retryFrom {α : Type} (op : Nat → Except RemoteError α) (jitter : Nat → ℚ)
    (baseDelay maxDelay : ℚ) :
    Nat → Nat → Except RemoteError α × Nat × List ℚ
  | remaining, attempt =>
    match op attempt with
    | .ok v => (.ok v, 1, [])
    | .error e =>
      match remaining with
      | 0 => (.error e, 1, [])
      | r + 1 =>
        if isTerminalStatus e.status then (.error e, 1, [])
        else
          let d := calculateDelay attempt baseDelay maxDelay (jitter attempt) e
          let rest := retryFrom op jitter baseDelay maxDelay r (attempt + 1)
          (rest.1, rest.2.1 + 1, d :: rest.2.2)

/-- Mirrors `TakaroClient.retryOperation` with options
`{maxRetries = 3, baseDelay = 1000, maxDelay = 30000}` unless overridden:
the loop starts at attempt 0 with `maxRetries` further attempts allowed. -/
def retryOperation {α : Type} (op : Nat → Except RemoteError α) (jitter : Nat → ℚ)
    (baseDelay maxDelay : ℚ) (maxRetries : Nat) : Except RemoteError α × Nat × List ℚ :=
  retryFrom op jitter baseDelay maxDelay maxRetries 0

theorem retryFrom_zero_error {α : Type} (op : Nat → Except RemoteError α)
    (jitter : Nat → ℚ) (baseDelay maxDelay : ℚ) (a : Nat) (e : RemoteError)
    (hop : op a = .error e) :
    retryFrom op jitter baseDelay maxDelay 0 a = (.error e, 1, []) := by
  rw [retryFrom, hop]

theorem retryFrom_succ_retryable {α : Type} (op : Nat → Except RemoteError α)
    (jitter : Nat → ℚ) (baseDelay maxDelay : ℚ) (r a : Nat) (e : RemoteError)
    (hop : op a = .error e) (hterm : isTerminalStatus e.status = false) :
    retryFrom op jitter baseDelay maxDelay (r + 1) a =
      ((retryFrom op jitter baseDelay maxDelay r (a + 1)).1,
       (retryFrom op jitter baseDelay maxDelay r (a + 1)).2.1 + 1,
       calculateDelay a baseDelay maxDelay (jitter a) e ::
         (retryFrom op jitter baseDelay maxDelay r (a + 1)).2.2) := by
  conv_lhs => rw [retryFrom]
  rw [hop]
  simp [hterm]

theorem retryFrom_all_retryable {α : Type} (op : Nat → Except RemoteError α)
    (jitter : Nat → ℚ) (baseDelay maxDelay : ℚ) (es : Nat → RemoteError)
    (r a : Nat)
    (hop : ∀ i, a ≤ i → i ≤ a + r → op i = .error (es i))
    (hterm : ∀ i, a ≤ i → i ≤ a + r → isTerminalStatus (es i).status = false) :
    retryFrom op jitter baseDelay maxDelay r a =
      (.error (es (a + r)), r + 1,
       (List.range r).map
         (fun j => calculateDelay (a + j) baseDelay maxDelay (jitter (a + j)) (es (a + j)))) := by
  induction r generalizing a with
  | zero =>
    rw [retryFrom_zero_error op jitter baseDelay maxDelay a (es a) (hop a le_rfl (by omega))]
    simp
  | succ r ih =>
    rw [retryFrom_succ_retryable op jitter baseDelay maxDelay r a (es a)
        (hop a le_rfl (by omega)) (hterm a le_rfl (by omega)),
      ih (a + 1) (fun i h1 h2 => hop i (by omega) (by omega))
        (fun i h1 h2 => hterm i (by omega) (by omega))]
    have hlast : a + 1 + r = a + (r + 1) := by omega
    refine Prod.ext (by simp [hlast]) (Prod.ext (by simp) ?_)
    simp only
    rw [List.range_succ_eq_map, List.map_cons, List.map_map]
    refine congrArg₂ List.cons (by simp) ?_
    refine List.map_congr_left (fun j hj => ?_)
    simp only [Function.comp_apply]
    have h1 : a + 1 + j = a + (j + 1) := by omega
    rw [h1]

/-- C5, confirmed.  The retry wrapper: (a) an error with an HTTP status in
the 4xx range other than 429 is re-raised on the first attempt, with exactly
one execution of the operation and no backoff sleep; (b) errors that are
retryable (429, 5xx, or no status — the terminal test is false) are retried
up to `maxRetries` additional attempts after the first, each preceded by a
`calculateDelay` backoff; (c) with a `retry-after` header the delay is the
header value in milliseconds, capped at `maxDelay`; (d) without it the delay
is the exponential `baseDelay * 2 ^ attempt` plus jitter, capped at
`maxDelay`; (e) every computed delay is at most `maxDelay`. -/
theorem c5_retryOperation_classification {α : Type} (op : Nat → Except RemoteError α)
    (jitter : Nat → ℚ) (baseDelay maxDelay : ℚ) (maxRetries : Nat) :
    (∀ e c, op 0 = .error e → e.status = some c → 400 ≤ c → c < 500 → c ≠ 429 →
      retryOperation op jitter baseDelay maxDelay maxRetries = (.error e, 1, []))
    ∧ (∀ es : Nat → RemoteError,
        (∀ i, i ≤ maxRetries → op i = .error (es i)) →
        (∀ i, i ≤ maxRetries → isTerminalStatus (es i).status = false) →
        retryOperation op jitter baseDelay maxDelay maxRetries =
          (.error (es maxRetries), maxRetries + 1,
           (List.range maxRetries).map
             (fun j => calculateDelay j baseDelay maxDelay (jitter j) (es j))))
    ∧ (∀ a j err (ra : Nat), err.retryAfter = some ra →
        calculateDelay a baseDelay maxDelay j err = min ((ra : ℚ) * 1000) maxDelay)
    ∧ (∀ a j err, err.retryAfter = none →
        calculateDelay a baseDelay maxDelay j err = min (baseDelay * 2 ^ a + j) maxDelay)
    ∧ (∀ a j err, calculateDelay a baseDelay maxDelay j err ≤ maxDelay) := by
  refine ⟨?_, ?_, ?_, ?_, ?_⟩
  · intro e c h1 h2 h3 h4 h5
    have hterm : isTerminalStatus e.status = true := by
      simp [isTerminalStatus, h2, h3, h4, bne_iff_ne, h5]
    cases maxRetries with
    | zero => exact retryFrom_zero_error op jitter baseDelay maxDelay 0 e h1
    | succ r =>
      rw [retryOperation, retryFrom, h1]
      simp [hterm]
  · intro es hop hterm
    have h := retryFrom_all_retryable op jitter baseDelay maxDelay es maxRetries 0
      (fun i h1 h2 => hop i (by omega)) (fun i h1 h2 => hterm i (by omega))
    simpa using h
  · intro a j err ra h
    simp [calculateDelay, h]
  · intro a j err h
    simp [calculateDelay, h]
  · intro a j err
    cases h : err.retryAfter with
    | none => simp [calculateDelay, h]
    | some ra => simp [calculateDelay, h]

/-- C5 witness: a 404 is re-raised after a single attempt with no sleeps; a
persistent 503 with zero jitter, `baseDelay = 1000`, `maxDelay = 30000` and
`maxRetries = 2` runs the operation 3 times, sleeping 1000 ms and then
2000 ms. -/
theorem c5_retryOperation_classification_witness :
    retryOperation (fun _ => (.error { status := some 404 } : Except RemoteError Unit))
      (fun _ => 0) 1000 30000 3 = (.error { status := some 404 }, 1, [])
    ∧ retryOperation (fun _ => (.error { status := some 503 } : Except RemoteError Unit))
      (fun _ => 0) 1000 30000 2 = (.error { status := some 503 }, 3, [1000, 2000]) := by
  constructor
  · exact (c5_retryOperation_classification
      (fun _ => (.error { status := some 404 } : Except RemoteError Unit))
      (fun _ => 0) 1000 30000 3).1 { status := some 404 } 404 rfl rfl
      (by norm_num) (by norm_num) (by norm_num)
  · have h := (c5_retryOperation_classification
      (fun _ => (.error { status := some 503 } : Except RemoteError Unit))
      (fun _ => 0) 1000 30000 2).2.1 (fun _ => { status := some 503 })
      (fun i _ => rfl) (fun i _ => rfl)
    rw [h]
    norm_num [calculateDelay, List.range_succ]

/-! ## Domain controller (`src/controllers/domain-controller.ts`)

The controller's effects are embedded by passing in the outcome of every
remote call (Takaro API, Kubernetes API) explicitly; timestamps
(`new Date().toISOString()`) are explicit parameters. -/

/-- A thrown JavaScript error as far as the controller inspects one:
a `TakaroClientError` (with its optional `statusCode`), a Kubernetes client
`HttpError` (with its optional `statusCode`), or any other `Error`. -/
inductive Thrown where
  | takaroClientError (message : String) (statusCode : Option Nat)
  | apiError (message : String) (statusCode : Option Nat)
  | otherError (message : String)
  deriving Repr, DecidableEq

/-- `error instanceof Error ? error.message : 'Unknown error occurred'`. -/
def thrownMessage : Thrown → String
  | .takaroClientError m _ => m
  | .apiError m _ => m
  | .otherError m => m

/-- A Kubernetes client error (`error.statusCode`). -/
structure ApiError where
  message : String := ""
  statusCode : Option Nat := none
  deriving Repr, DecidableEq, Inhabited

/-- Mirrors `TakaroClient.deleteDomain`, as a function of the outcome of the
retried remote `domainControllerRemove` call: a 404 failure is logged and
swallowed (`return`), any other failure is rethrown as a `TakaroClientError`
carrying `error.response?.status`. -/
def deleteDomain (domainId : String) (outcome : Except RemoteError Unit) :
    Except Thrown Unit :=
  match outcome with
  | .ok _ => .ok ()
  | .error e =>
    if e.status = some 404 then .ok ()
    else .error (.takaroClientError ("Failed to delete domain " ++ domainId) e.status)

/-- `spec.limits` of the Domain CRD. -/
structure DomainLimits where
  maxGameServers : Option Nat := none
  maxUsers : Option Nat := none
  deriving Repr, DecidableEq, Inhabited

/-- `spec.settings` of the Domain CRD. -/
structure DomainSettings where
  maintenanceMode : Option Bool := none
  deriving Repr, DecidableEq, Inhabited

/-- `DomainSpec` of `src/apis/v1/domain.ts` (the fields the controller
reads). -/
structure DomainSpec where
  name : String := ""
  externalReference : String := ""
  limits : Option DomainLimits := none
  settings : Option DomainSettings := none
  deriving Repr, DecidableEq, Inhabited

/-- `status.rootUserCredentials` of the Domain CRD. -/
structure RootUserCredentials where
  username : String := ""
  secretName : String := ""
  deriving Repr, DecidableEq, Inhabited

/-- `DomainStatus` of `src/apis/v1/domain.ts`. -/
structure DomainStatus where
  phase : Option String := none
  externalReferenceId : Option String := none
  registrationToken : Option String := none
  rootUserCredentials : Option RootUserCredentials := none
  conditions : Option (List Condition) := none
  lastReconcileTime : Option String := none
  observedGeneration : Option Nat := none
  deriving Repr, DecidableEq, Inhabited

/-- A `Domain` custom resource (`metadata` optional because the controller
consistently guards it with `domain.metadata?.`). -/
structure Domain where
  metadata : Option ObjectMeta := none
  spec : DomainSpec := {}
  status : Option DomainStatus := none
  deriving Repr, DecidableEq, Inhabited

/-- `TakaroRootUser` of `src/services/takaro-client.ts`. -/
structure TakaroRootUser where
  username : String := ""
  password : String := ""
  deriving Repr, DecidableEq, Inhabited

/-- The object `reconcileDomain` receives from `takaroClient.createDomain`:
it reads `takaroDomain.id` and `takaroDomain.rootUser`.  (The client's
declared `TakaroDomain` interface carries no `rootUser` field and its
`createDomain` mapping never sets one; the field is kept optional here and
supplied by the call outcome, so the reconciler's own guard decides.) -/
structure TakaroDomain where
  id : String := ""
  rootUser : Option TakaroRootUser := none
  deriving Repr, DecidableEq, Inhabited

/-- `const FINALIZER_NAME = 'takaro.io/domain-protection'`. -/
def FINALIZER_NAME : String := "takaro.io/domain-protection"

/-- JavaScript `x || dflt` on an optional string. -/
def jsOrStr (o : Option String) (dflt : String) : String :=
  if jsTruthy o then o.getD "" else dflt

/-- The guard `!domain.metadata?.namespace || !domain.metadata?.name ||
!domain.metadata?.uid` used by `generateExternalReferenceId` and
`createSecrets` (true here when all three are present and truthy). -/
def metaFieldsPresent (domain : Domain) : Bool :=
  match domain.metadata with
  | none => false
  | some md => jsTruthy md.nspace && md.name != "" && jsTruthy md.uid

/-- Mirrors `DomainController.generateExternalReferenceId`: throws when
namespace, name or uid is missing; otherwise returns
`k8s-operator-${namespace}-${name}-${uid.substring(0, 8)}`. -/
def generateExternalReferenceId (domain : Domain) : Except Thrown String :=
  if metaFieldsPresent domain = false then
    .error (.otherError "Domain metadata is missing required fields")
  else
    let md := domain.metadata.getD {}
    .ok ("k8s-operator-" ++ md.nspace.getD "" ++ "-" ++ md.name ++ "-"
      ++ (md.uid.getD "").take 8)

/-- Mirrors `DomainController.hasSpecChanged`:
`!status?.observedGeneration` (absent or 0) means changed, else compare
`metadata?.generation !== status.observedGeneration`. -/
def hasSpecChanged (domain : Domain) : Bool :=
  match domain.status.bind DomainStatus.observedGeneration with
  | none => true
  | some og =>
    if og = 0 then true
    else decide ((domain.metadata.bind ObjectMeta.generation) ≠ some og)

/-- Mirrors `DomainController.createSecrets`, as a function of the outcomes
of the two `createNamespacedSecret` calls (registration-token secret first,
then root-credentials secret).  A 409 (already exists) from either create is
logged and swallowed; any other failure is rethrown. -/
def createSecrets (domain : Domain)
    (tokenSecretOutcome credsSecretOutcome : Except ApiError Unit) : Except Thrown Unit :=
  if metaFieldsPresent domain = false then
    .error (.otherError "Domain metadata is missing required fields")
  else
    match tokenSecretOutcome with
    | .error e =>
      if e.statusCode ≠ some 409 then .error (.apiError e.message e.statusCode)
      else
        match credsSecretOutcome with
        | .error e2 =>
          if e2.statusCode ≠ some 409 then .error (.apiError e2.message e2.statusCode)
          else .ok ()
        | .ok _ => .ok ()
    | .ok _ =>
      match credsSecretOutcome with
      | .error e2 =>
        if e2.statusCode ≠ some 409 then .error (.apiError e2.message e2.statusCode)
        else .ok ()
      | .ok _ => .ok ()

/-- `ReconcileResult` of `src/controllers/base-controller.ts`; `{}` is the
empty no-requeue result. -/
structure ReconcileResult where
  requeue : Option Bool := none
  requeueAfter : Option Nat := none
  deriving Repr, DecidableEq, Inhabited

/-- Outcomes of the side effects `handleDeletion` performs, in program
order: the `phase: 'Deleting'` status patch, the raw outcome of the retried
remote remove call (fed to `deleteDomain`), and the finalizer-removal
patch. -/
structure DeletionEnv where
  statusPatch : Except Thrown Unit := .ok ()
  deleteOutcome : Except RemoteError Unit := .ok ()
  finalizerPatch : Except Thrown Unit := .ok ()
  deriving Inhabited

/-- Observable actions of one `handleDeletion` run: whether the remote
delete was invoked, whether the finalizer-removal patch was issued, and the
statuses successfully persisted. -/
structure DeletionActions where
  deleteCalled : Bool := false
  finalizerPatchIssued : Bool := false
  writes : List DomainStatus := []
  deriving Repr, DecidableEq, Inhabited

/-- Mirrors `DomainController.handleDeletion`.  Without the finalizer the
result is `{}` untouched.  Otherwise, when `status.externalReferenceId` is
truthy the try block checks metadata, patches phase `Deleting` and calls the
remote delete; a caught `TakaroClientError` with `statusCode !== 404`
returns `{requeue: true, requeueAfter: 5000}` with the finalizer left in
place, every other caught error falls through; finally `removeFinalizer`
issues its patch (its failure propagates to the caller). -/
def handleDeletion (domain : Domain) (env : DeletionEnv) :
    Except Thrown ReconcileResult × DeletionActions :=
  let hasFinalizer := ((domain.metadata.bind ObjectMeta.finalizers).getD []).contains FINALIZER_NAME
  if hasFinalizer = false then (.ok {}, {})
  else
    let tryOutcome : Except Thrown Unit × Bool × List DomainStatus :=
      if jsTruthy (domain.status.bind DomainStatus.externalReferenceId) then
        if jsTruthy (domain.metadata.bind ObjectMeta.nspace) = false
            ∨ (domain.metadata.map ObjectMeta.name).getD "" = "" then
          (.error (.otherError "Domain metadata is missing namespace or name"), false, [])
        else
          match env.statusPatch with
          | .error e => (.error e, false, [])
          | .ok _ =>
            (deleteDomain ((domain.status.bind DomainStatus.externalReferenceId).getD "")
                env.deleteOutcome,
             true,
             [{ domain.status.getD {} with phase := some "Deleting" }])
      else (.ok (), false, [])
    let afterTry : Bool → List DomainStatus → Except Thrown ReconcileResult × DeletionActions :=
      fun deleteCalled ws =>
        match env.finalizerPatch with
        | .ok _ => (.ok {}, { deleteCalled := deleteCalled, finalizerPatchIssued := true,
                              writes := ws })
        | .error e => (.error e, { deleteCalled := deleteCalled, finalizerPatchIssued := true,
                                   writes := ws })
    match tryOutcome with
    | (.ok _, deleteCalled, ws) => afterTry deleteCalled ws
    | (.error err, deleteCalled, ws) =>
      match err with
      | .takaroClientError _ sc =>
        if sc ≠ some 404 then
          (.ok { requeue := some true, requeueAfter := some 5000 },
           { deleteCalled := deleteCalled, finalizerPatchIssued := false, writes := ws })
        else afterTry deleteCalled ws
      | _ => afterTry deleteCalled ws

/-- Mirrors `DomainController.ensureFinalizer`: a no-op when the finalizer is
already present, otherwise the add-finalizer patch is issued and its failure
rethrown. -/
def ensureFinalizer (domain : Domain) (patch : Except Thrown Unit) : Except Thrown Unit :=
  if ((domain.metadata.bind ObjectMeta.finalizers).getD []).contains FINALIZER_NAME then .ok ()
  else patch

/-- Outcomes of the remote calls `reconcileDomain` can make, in program
order: `createDomain` (already wrapped into `TakaroClientError` by the
client on failure), `generateRegistrationToken`, the two secret creates, and
`updateDomain`. -/
structure CreateEnv where
  create : Except Thrown TakaroDomain := .ok {}
  token : Except Thrown String := .ok ""
  tokenSecret : Except ApiError Unit := .ok ()
  credsSecret : Except ApiError Unit := .ok ()
  update : Except Thrown Unit := .ok ()
  deriving Inhabited

/-- Mirrors `DomainController.reconcileDomain`; `now` stands for the
timestamps drawn during the run.  On the creation branch a failure of any
step rethrows (the `Ready=False/CreateFailed` and `Error=True/CreateError`
conditions assigned in the catch block are only local mutations that the
rethrow discards, so they are not part of the returned status); on the
steady-state branch an update failure likewise rethrows. -/
def reconcileDomain (domain : Domain) (env : CreateEnv) (now : String) :
    Except Thrown DomainStatus :=
  let currentPhase := jsOrStr (domain.status.bind DomainStatus.phase) "Pending"
  let conditions0 := (domain.status.bind DomainStatus.conditions).getD []
  let externalReferenceId0 := domain.status.bind DomainStatus.externalReferenceId
  if jsTruthy externalReferenceId0 = false then
    match generateExternalReferenceId domain with
    | .error e => .error e
    | .ok extId =>
      match env.create with
      | .error e => .error e
      | .ok takaroDomain =>
        match env.token with
        | .error e => .error e
        | .ok registrationToken =>
          match takaroDomain.rootUser with
          | none => .error (.otherError "Domain creation did not return root user credentials")
          | some rootUser =>
            match createSecrets domain env.tokenSecret env.credsSecret with
            | .error e => .error e
            | .ok _ =>
              let conditions1 := updateCondition conditions0 "Ready" "True" "DomainCreated"
                "Domain has been successfully created in Takaro" now
              let conditions2 := updateCondition conditions1 "Synced" "True" "SpecSynced"
                "Domain configuration is synchronized with Takaro" now
              let conditions3 := updateCondition conditions2 "Error" "False" "NoError"
                "No errors" now
              .ok { phase := some "Ready",
                    conditions := some conditions3,
                    externalReferenceId := some extId,
                    registrationToken := some registrationToken,
                    rootUserCredentials := some
                      { username := rootUser.username,
                        secretName := (domain.metadata.map ObjectMeta.name).getD ""
                          ++ "-root-credentials" },
                    lastReconcileTime := some now,
                    observedGeneration := domain.metadata.bind ObjectMeta.generation }
  else
    let afterSync : Except Thrown (List Condition) :=
      if hasSpecChanged domain then
        match env.update with
        | .ok _ => .ok (updateCondition conditions0 "Synced" "True" "SpecSynced"
            "Domain configuration has been updated in Takaro" now)
        | .error e => .error e
      else .ok conditions0
    match afterSync with
    | .error e => .error e
    | .ok conditions1 =>
      if currentPhase ≠ "Ready" ∧ currentPhase ≠ "Error" then
        .ok { phase := some "Ready",
              conditions := some (updateCondition conditions1 "Ready" "True" "DomainReady"
                "Domain is ready" now),
              externalReferenceId := externalReferenceId0,
              registrationToken := domain.status.bind DomainStatus.registrationToken,
              rootUserCredentials := domain.status.bind DomainStatus.rootUserCredentials,
              lastReconcileTime := some now,
              observedGeneration := domain.metadata.bind ObjectMeta.generation }
      else
        .ok { phase := some currentPhase,
              conditions := some conditions1,
              externalReferenceId := externalReferenceId0,
              registrationToken := domain.status.bind DomainStatus.registrationToken,
              rootUserCredentials := domain.status.bind DomainStatus.rootUserCredentials,
              lastReconcileTime := some now,
              observedGeneration := domain.metadata.bind ObjectMeta.generation }

/-- Mirrors `BaseController.getResource` as a function of the raw API call
outcome: a 404 is mapped to `null`, every other error is rethrown. -/
def getResource (raw : Except ApiError Domain) : Except ApiError (Option Domain) :=
  match raw with
  | .ok d => .ok (some d)
  | .error e => if e.statusCode = some 404 then .ok none else .error e

/-- All outcomes one `DomainController.reconcile` run can observe, in
program order. -/
structure ReconcileEnv where
  fetched : Option Domain := none
  deletion : DeletionEnv := {}
  finalizerAddPatch : Except Thrown Unit := .ok ()
  createEnv : CreateEnv := {}
  statusUpdate : Except Thrown Unit := .ok ()
  refetched : Except Thrown (Option Domain) := .ok none
  errorStatusUpdate : Except Thrown Unit := .ok ()
  deriving Inhabited

/-- Observable outcome of one `reconcile` run: the returned result and the
statuses persisted through `updateResourceStatus`, in order. -/
structure ReconcileOutcome where
  result : ReconcileResult
  writes : List DomainStatus
  deriving Repr, DecidableEq, Inhabited

/-- Mirrors `DomainController.reconcile`; `now` is the timestamp of the main
path, `errNow` the timestamps drawn inside the catch block.  A missing
resource short-circuits to `{}`.  The try block runs deletion or
finalizer+reconcileDomain+status-write and returns the 60 s steady-state
requeue; the catch block best-effort-writes an `Error=True/ReconcileError`
condition with phase `Error` on the refetched resource (its own failures are
swallowed) and returns the 5 s retry requeue. -/
def reconcile (env : ReconcileEnv) (now errNow : String) : ReconcileOutcome :=
  match env.fetched with
  | none => { result := {}, writes := [] }
  | some domain =>
    let tryRes : Except Thrown ReconcileResult × List DomainStatus :=
      if jsTruthy (domain.metadata.bind ObjectMeta.deletionTimestamp) then
        let hd := handleDeletion domain env.deletion
        (hd.1, hd.2.writes)
      else
        match ensureFinalizer domain env.finalizerAddPatch with
        | .error e => (.error e, [])
        | .ok _ =>
          match reconcileDomain domain env.createEnv now with
          | .error e => (.error e, [])
          | .ok updatedStatus =>
            match env.statusUpdate with
            | .error e => (.error e, [])
            | .ok _ =>
              (.ok { requeue := some true, requeueAfter := some 60000 }, [updatedStatus])
    match tryRes with
    | (.ok result, ws) => { result := result, writes := ws }
    | (.error err, ws) =>
      let errWrites : List DomainStatus :=
        match env.refetched with
        | .error _ => []
        | .ok none => []
        | .ok (some d) =>
          match env.errorStatusUpdate with
          | .error _ => []
          | .ok _ =>
            [{ d.status.getD {} with
                phase := some "Error",
                conditions := some (updateCondition
                  ((d.status.bind DomainStatus.conditions).getD [])
                  "Error" "True" "ReconcileError" (thrownMessage err) errNow),
                lastReconcileTime := some errNow }]
      { result := { requeue := some true, requeueAfter := some 5000 },
        writes := ws ++ errWrites }

/-- C3, confirmed.  When the remote delete fails with HTTP 404,
`deleteDomain` returns normally, and the deletion path behaves exactly as on
a successful delete: it issues the finalizer-removal patch and returns the
empty no-requeue result. -/
theorem c3_delete_404_is_success (domain : Domain) (md : ObjectMeta) (extId : String)
    (env : DeletionEnv) (e : RemoteError)
    (hmd : domain.metadata = some md)
    (hfin : (md.finalizers.getD []).contains FINALIZER_NAME = true)
    (hext : domain.status.bind DomainStatus.externalReferenceId = some extId)
    (hextne : extId ≠ "")
    (hns : jsTruthy md.nspace = true)
    (hname : md.name ≠ "")
    (hsp : env.statusPatch = .ok ())
    (hfp : env.finalizerPatch = .ok ())
    (hdel : env.deleteOutcome = .error e)
    (h404 : e.status = some 404) :
    deleteDomain extId env.deleteOutcome = .ok ()
    ∧ handleDeletion domain env =
        (.ok {}, { deleteCalled := true, finalizerPatchIssued := true,
                   writes := [{ domain.status.getD {} with phase := some "Deleting" }] })
    ∧ handleDeletion domain env = handleDeletion domain { env with deleteOutcome := .ok () } := by
  have hfinm : FINALIZER_NAME ∈ md.finalizers.getD [] := by simpa using hfin
  have hextT : jsTruthy (some extId) = true := by
    simpa [jsTruthy] using hextne
  refine ⟨by simp [deleteDomain, hdel, h404], ?_, ?_⟩
  · simp [handleDeletion, hmd, hfinm, hextT, hext, hns, hname, hsp, hfp, hdel,
      deleteDomain, h404]
  · simp [handleDeletion, hmd, hfinm, hextT, hext, hns, hname, hsp, hfp, hdel,
      deleteDomain, h404]

/-- C4, confirmed.  With the finalizer present, an external reference id
set, and a deletion timestamp, a remote delete failure other than 404 (any
other status, or none at all) leaves the finalizer untouched — no
finalizer-removal patch is issued — and returns
`{requeue: true, requeueAfter: 5000}`. -/
theorem c4_non404_delete_failure_keeps_finalizer (domain : Domain) (md : ObjectMeta)
    (extId : String) (env : DeletionEnv) (e : RemoteError)
    (hmd : domain.metadata = some md)
    (hfin : (md.finalizers.getD []).contains FINALIZER_NAME = true)
    (hext : domain.status.bind DomainStatus.externalReferenceId = some extId)
    (hextne : extId ≠ "")
    (hns : jsTruthy md.nspace = true)
    (hname : md.name ≠ "")
    (hsp : env.statusPatch = .ok ())
    (hdel : env.deleteOutcome = .error e)
    (hno404 : e.status ≠ some 404) :
    handleDeletion domain env =
      (.ok { requeue := some true, requeueAfter := some 5000 },
       { deleteCalled := true, finalizerPatchIssued := false,
         writes := [{ domain.status.getD {} with phase := some "Deleting" }] }) := by
  have hfinm : FINALIZER_NAME ∈ md.finalizers.getD [] := by simpa using hfin
  have hextT : jsTruthy (some extId) = true := by
    simpa [jsTruthy] using hextne
  simp [handleDeletion, hmd, hfinm, hextT, hext, hns, hname, hsp, hdel,
    deleteDomain, hno404]

/-- C3 witness: a concrete domain whose remote delete returns 404. -/
theorem c3_delete_404_is_success_witness :
    handleDeletion
      { metadata := some { nspace := some "default", name := "d1", uid := some "u",
                           finalizers := some ["takaro.io/domain-protection"] },
        status := some { externalReferenceId := some "ext-1" } }
      { deleteOutcome := .error { status := some 404 } } =
      (.ok {}, { deleteCalled := true, finalizerPatchIssued := true,
                 writes := [{ externalReferenceId := some "ext-1",
                              phase := some "Deleting" }] }) := by
  have h := (c3_delete_404_is_success
    { metadata := some { nspace := some "default", name := "d1", uid := some "u",
                         finalizers := some ["takaro.io/domain-protection"] },
      status := some { externalReferenceId := some "ext-1" } }
    { nspace := some "default", name := "d1", uid := some "u",
      finalizers := some ["takaro.io/domain-protection"] }
    "ext-1"
    { deleteOutcome := .error { status := some 404 } }
    { status := some 404 }
    rfl (by decide) rfl (by decide) (by decide) (by decide) rfl rfl rfl rfl).2.1
  simpa using h

/-- C4 witness: a concrete domain whose remote delete fails with 500. -/
theorem c4_non404_delete_failure_keeps_finalizer_witness :
    handleDeletion
      { metadata := some { nspace := some "default", name := "d1", uid := some "u",
                           finalizers := some ["takaro.io/domain-protection"] },
        status := some { externalReferenceId := some "ext-1" } }
      { deleteOutcome := .error { status := some 500 } } =
      (.ok { requeue := some true, requeueAfter := some 5000 },
       { deleteCalled := true, finalizerPatchIssued := false,
         writes := [{ externalReferenceId := some "ext-1",
                      phase := some "Deleting" }] }) := by
  have h := c4_non404_delete_failure_keeps_finalizer
    { metadata := some { nspace := some "default", name := "d1", uid := some "u",
                         finalizers := some ["takaro.io/domain-protection"] },
      status := some { externalReferenceId := some "ext-1" } }
    { nspace := some "default", name := "d1", uid := some "u",
      finalizers := some ["takaro.io/domain-protection"] }
    "ext-1"
    { deleteOutcome := .error { status := some 500 } }
    { status := some 500 }
    rfl (by decide) rfl (by decide) (by decide) (by decide) rfl rfl (by decide)
  simpa using h

/-- The outcome of one `createNamespacedSecret` call either succeeded or
failed with HTTP 409 (already exists) — the two cases `createSecrets`
swallows. -/
def okOr409 (o : Except ApiError Unit) : Prop :=
  o = .ok () ∨ ∃ e, o = .error e ∧ e.statusCode = some 409

instance (o : Except ApiError Unit) : Decidable (okOr409 o) := by
  unfold okOr409
  cases o with
  | ok v => cases v; exact isTrue (Or.inl rfl)
  | error e =>
    by_cases h : e.statusCode = some 409
    · exact isTrue (Or.inr ⟨e, rfl, h⟩)
    · refine isFalse ?_
      rintro (hc | ⟨e2, he2, h409⟩)
      · exact Except.noConfusion hc
      · cases he2
        exact h h409

/-- C10, confirmed.  With the metadata fields present, `createSecrets`
treats an HTTP 409 from either secret create exactly like success — any
combination of success and 409 across the two creates returns normally — and
any other failure of either create is propagated (the first create's failure
short-circuits; the second propagates whenever the first was success or
409). -/
theorem c10_createSecrets_conflict_tolerant (domain : Domain)
    (o1 o2 : Except ApiError Unit)
    (hm : metaFieldsPresent domain = true) :
    (okOr409 o1 → okOr409 o2 → createSecrets domain o1 o2 = .ok ())
    ∧ (∀ e1, o1 = .error e1 → e1.statusCode ≠ some 409 →
        createSecrets domain o1 o2 = .error (.apiError e1.message e1.statusCode))
    ∧ (∀ e2, okOr409 o1 → o2 = .error e2 → e2.statusCode ≠ some 409 →
        createSecrets domain o1 o2 = .error (.apiError e2.message e2.statusCode)) := by
  refine ⟨?_, ?_, ?_⟩
  · rintro (h1 | ⟨e1, he1, h1409⟩) (h2 | ⟨e2, he2, h2409⟩)
    · subst_vars; simp [createSecrets, hm]
    · subst_vars; simp [createSecrets, hm, h2409]
    · subst_vars; simp [createSecrets, hm, h1409]
    · subst_vars; simp [createSecrets, hm, h1409, h2409]
  · intro e1 he1 hne
    subst he1
    simp [createSecrets, hm, hne]
  · rintro e2 (h1 | ⟨e1, he1, h1409⟩) he2 hne
    · subst_vars; simp [createSecrets, hm, hne]
    · subst_vars; simp [createSecrets, hm, hne, h1409]

/-- C10 witness: both creates answering 409 (the re-run-after-partial-attempt
scenario) return success; a 500 on the credentials secret is propagated. -/
theorem c10_createSecrets_conflict_tolerant_witness :
    createSecrets
      { metadata := some { nspace := some "default", name := "d1", uid := some "u1" } }
      (.error { statusCode := some 409 }) (.error { statusCode := some 409 }) = .ok ()
    ∧ createSecrets
      { metadata := some { nspace := some "default", name := "d1", uid := some "u1" } }
      (.ok ()) (.error { message := "boom", statusCode := some 500 }) =
      .error (.apiError "boom" (some 500)) := by
  constructor
  · exact (c10_createSecrets_conflict_tolerant
      { metadata := some { nspace := some "default", name := "d1", uid := some "u1" } }
      (.error { statusCode := some 409 }) (.error { statusCode := some 409 })
      (by decide)).1 (by decide) (by decide)
  · exact (c10_createSecrets_conflict_tolerant
      { metadata := some { nspace := some "default", name := "d1", uid := some "u1" } }
      (.ok ()) (.error { message := "boom", statusCode := some 500 })
      (by decide)).2.2 { message := "boom", statusCode := some 500 }
      (by decide) rfl (by decide)

theorem generateExternalReferenceId_deterministic (d1 d2 : Domain)
    (h : d1.metadata.map (fun md => (md.nspace, md.name, md.uid)) =
         d2.metadata.map (fun md => (md.nspace, md.name, md.uid))) :
    generateExternalReferenceId d1 = generateExternalReferenceId d2 := by
  cases h1 : d1.metadata with
  | none =>
    cases h2 : d2.metadata with
    | none => simp [generateExternalReferenceId, metaFieldsPresent, h1, h2]
    | some md2 => rw [h1, h2] at h; simp at h
  | some md1 =>
    cases h2 : d2.metadata with
    | none => rw [h1, h2] at h; simp at h
    | some md2 =>
      rw [h1, h2] at h
      simp at h
      obtain ⟨ha, hb, hc⟩ := h
      simp [generateExternalReferenceId, metaFieldsPresent, h1, h2, ha, hb, hc]

theorem append_hyphen_inj :
    ∀ (a1 a2 rest1 rest2 : List Char), '-' ∉ a1 → '-' ∉ a2 →
      a1 ++ '-' :: rest1 = a2 ++ '-' :: rest2 → a1 = a2 ∧ rest1 = rest2 := by
  intro a1
  induction a1 with
  | nil =>
    intro a2 rest1 rest2 h1 h2 heq
    cases a2 with
    | nil => simpa using heq
    | cons c a2t =>
      simp only [List.nil_append, List.cons_append, List.cons.injEq] at heq
      exact absurd (heq.1.symm ▸ List.mem_cons_self c a2t) (heq.1 ▸ h2)
  | cons c a1t ih =>
    intro a2 rest1 rest2 h1 h2 heq
    cases a2 with
    | nil =>
      simp only [List.cons_append, List.nil_append, List.cons.injEq] at heq
      exact absurd (heq.1 ▸ List.mem_cons_self c a1t) h1
    | cons c2 a2t =>
      simp only [List.cons_append, List.cons.injEq] at heq
      obtain ⟨hc, htail⟩ := heq
      have h1t : '-' ∉ a1t := fun hm => h1 (List.mem_cons_of_mem c hm)
      have h2t : '-' ∉ a2t := fun hm => h2 (List.mem_cons_of_mem c2 hm)
      obtain ⟨hA, hR⟩ := ih a2t rest1 rest2 h1t h2t htail
      exact ⟨by rw [hc, hA], hR⟩

/-- C7, counterexample.  Id derivation is deterministic, but distinct
`(namespace, name)` pairs do NOT always yield distinct ids: the hyphen
separators are ambiguous, so namespace `a-b` with name `c` and namespace `a`
with name `b-c` (same uid) both derive `k8s-operator-a-b-c-01234567`. -/
theorem c7_hyphen_collision_counterexample :
    generateExternalReferenceId
      { metadata := some { nspace := some "a-b", name := "c", uid := some "0123456789ab" } } =
      generateExternalReferenceId
        { metadata := some { nspace := some "a", name := "b-c", uid := some "0123456789ab" } }
    ∧ generateExternalReferenceId
      { metadata := some { nspace := some "a-b", name := "c", uid := some "0123456789ab" } } =
      .ok "k8s-operator-a-b-c-01234567"
    ∧ ((some "a-b", "c") : Option String × String) ≠ (some "a", "b-c") := by
  refine ⟨rfl, rfl, by decide⟩

/-- C7, amended.  Id derivation is a pure deterministic function of
`(namespace, name, uid)`, built as
`k8s-operator-<namespace>-<name>-<first 8 uid characters>`; and distinct
`(namespace, name)` pairs yield distinct ids PROVIDED the namespaces contain
no hyphen and the two uid slices have equal length (e.g. uids of at least 8
characters) — without that proviso the hyphen separators are ambiguous and
distinct pairs can collide. -/
theorem c7_generateExternalReferenceId_amended (d1 d2 : Domain) (md1 md2 : ObjectMeta)
    (h1 : d1.metadata = some md1) (h2 : d2.metadata = some md2) :
    (md1.nspace = md2.nspace → md1.name = md2.name → md1.uid = md2.uid →
      generateExternalReferenceId d1 = generateExternalReferenceId d2)
    ∧ ('-' ∉ (md1.nspace.getD "").data → '-' ∉ (md2.nspace.getD "").data →
       ((md1.uid.getD "").take 8).length = ((md2.uid.getD "").take 8).length →
       metaFieldsPresent d1 = true → metaFieldsPresent d2 = true →
       generateExternalReferenceId d1 = generateExternalReferenceId d2 →
       md1.nspace = md2.nspace ∧ md1.name = md2.name) := by
  constructor
  · intro ha hb hc
    exact generateExternalReferenceId_deterministic d1 d2 (by rw [h1, h2]; simp [ha, hb, hc])
  · intro hh1 hh2 hlen hp1 hp2 heq
    have heq2 : "k8s-operator-" ++ md1.nspace.getD "" ++ "-" ++ md1.name ++ "-"
          ++ (md1.uid.getD "").take 8
        = "k8s-operator-" ++ md2.nspace.getD "" ++ "-" ++ md2.name ++ "-"
          ++ (md2.uid.getD "").take 8 := by
      simpa [generateExternalReferenceId, h1, h2, hp1, hp2] using heq
    generalize hg1 : (md1.uid.getD "").take 8 = u1 at heq2 hlen
    generalize hg2 : (md2.uid.getD "").take 8 = u2 at heq2 hlen
    have hd := congrArg String.data heq2
    simp only [String.data_append, List.append_assoc] at hd
    simp only [List.singleton_append] at hd
    have hd2 := List.append_cancel_left hd
    obtain ⟨hns, hrest⟩ := append_hyphen_inj _ _ _ _ hh1 hh2 hd2
    have hlen2 : u1.data.length = u2.data.length := hlen
    obtain ⟨hname, _⟩ := List.append_inj' hrest (by simp [hlen2])
    have hnsS : md1.nspace.getD "" = md2.nspace.getD "" := String.ext hns
    have hnameS : md1.name = md2.name := String.ext hname
    have ht1 : jsTruthy md1.nspace = true := by
      simp [metaFieldsPresent, h1] at hp1
      exact hp1.1.1
    have ht2 : jsTruthy md2.nspace = true := by
      simp [metaFieldsPresent, h2] at hp2
      exact hp2.1.1
    refine ⟨?_, hnameS⟩
    cases hc1 : md1.nspace with
    | none => rw [hc1] at ht1; simp [jsTruthy] at ht1
    | some s1 =>
      cases hc2 : md2.nspace with
      | none => rw [hc2] at ht2; simp [jsTruthy] at ht2
      | some s2 =>
        rw [hc1, hc2] at hnsS
        simp only [Option.getD_some] at hnsS
        rw [hnsS]

/-- C7 witness: the amended theorem applied at concrete domains — two
resources with identical `(namespace, name, uid)` but different spec derive
the same id, and with hyphen-free namespaces and 12-character uids, equal
ids force equal namespace and name. -/
theorem c7_generateExternalReferenceId_amended_witness :
    generateExternalReferenceId
      { metadata := some { nspace := some "ns1", name := "dom", uid := some "0123456789ab" },
        spec := { name := "left" } } =
      generateExternalReferenceId
        { metadata := some { nspace := some "ns1", name := "dom", uid := some "0123456789ab" },
          spec := { name := "right" } }
    ∧ ((some "ns1" : Option String) = some "ns1" ∧ ("dom" : String) = "dom") := by
  constructor
  · exact (c7_generateExternalReferenceId_amended
      { metadata := some { nspace := some "ns1", name := "dom", uid := some "0123456789ab" },
        spec := { name := "left" } }
      { metadata := some { nspace := some "ns1", name := "dom", uid := some "0123456789ab" },
        spec := { name := "right" } }
      { nspace := some "ns1", name := "dom", uid := some "0123456789ab" }
      { nspace := some "ns1", name := "dom", uid := some "0123456789ab" }
      rfl rfl).1 rfl rfl rfl
  · exact (c7_generateExternalReferenceId_amended
      { metadata := some { nspace := some "ns1", name := "dom", uid := some "0123456789ab" },
        spec := { name := "left" } }
      { metadata := some { nspace := some "ns1", name := "dom", uid := some "0123456789ab" },
        spec := { name := "right" } }
      { nspace := some "ns1", name := "dom", uid := some "0123456789ab" }
      { nspace := some "ns1", name := "dom", uid := some "0123456789ab" }
      rfl rfl).2 (by decide) (by decide) rfl (by decide) (by decide) rfl

/-- C6, counterexample.  When the external create fails, the claim says the
persisted status carries a `Ready=False/CreateFailed` and an
`Error=True/CreateError` condition.  In the code those conditions are
assigned to a local variable inside `reconcileDomain`'s catch block and then
discarded by the rethrow; what `reconcile`'s catch block persists is a
single `Error=True/ReconcileError` condition and no `Ready` condition at
all: on a fresh domain whose create fails with 500, the one persisted
status has exactly the condition `(Error, True, ReconcileError)`. -/
theorem c6_create_failure_conditions_counterexample :
    (reconcile
      { fetched := some
          { metadata := some { nspace := some "default", name := "test",
                               uid := some "0123456789ab",
                               finalizers := some ["takaro.io/domain-protection"] },
            spec := { name := "test" } },
        createEnv := { create := .error (.takaroClientError "Failed to create domain test"
          (some 500)) },
        refetched := .ok (some
          { metadata := some { nspace := some "default", name := "test",
                               uid := some "0123456789ab",
                               finalizers := some ["takaro.io/domain-protection"] },
            spec := { name := "test" } }) }
      "t1" "t2").result = { requeue := some true, requeueAfter := some 5000 }
    ∧ (reconcile
      { fetched := some
          { metadata := some { nspace := some "default", name := "test",
                               uid := some "0123456789ab",
                               finalizers := some ["takaro.io/domain-protection"] },
            spec := { name := "test" } },
        createEnv := { create := .error (.takaroClientError "Failed to create domain test"
          (some 500)) },
        refetched := .ok (some
          { metadata := some { nspace := some "default", name := "test",
                               uid := some "0123456789ab",
                               finalizers := some ["takaro.io/domain-protection"] },
            spec := { name := "test" } }) }
      "t1" "t2").writes.map
        (fun w => ((w.conditions.getD []).map (fun c => (c.type, c.status, c.reason)),
                   w.phase, w.externalReferenceId)) =
      [([("Error", "True", "ReconcileError")], some "Error", none)]
    ∧ ((reconcile
      { fetched := some
          { metadata := some { nspace := some "default", name := "test",
                               uid := some "0123456789ab",
                               finalizers := some ["takaro.io/domain-protection"] },
            spec := { name := "test" } },
        createEnv := { create := .error (.takaroClientError "Failed to create domain test"
          (some 500)) },
        refetched := .ok (some
          { metadata := some { nspace := some "default", name := "test",
                               uid := some "0123456789ab",
                               finalizers := some ["takaro.io/domain-protection"] },
            spec := { name := "test" } }) }
      "t1" "t2").writes.all
        (fun w => (w.conditions.getD []).all
          (fun c => c.reason != "CreateError" && c.reason != "CreateFailed"
            && c.type != "Ready"))) = true := by
  refine ⟨rfl, rfl, rfl⟩

/-- C6, amended.  On a create failure the reconcile leaves
`externalReferenceId` unset in the persisted status (the derived id is not
persisted), sets phase `Error`, persists an `Error=True` condition whose
reason is `ReconcileError` (the `Ready=False/CreateFailed` and
`Error=True/CreateError` conditions computed before the rethrow are
discarded), returns the short 5 s retry result, and a next reconcile of a
resource with the same metadata derives the same external reference id. -/
theorem c6_create_failure_amended (env : ReconcileEnv) (domain : Domain) (e : Thrown)
    (now errNow : String)
    (hf : env.fetched = some domain)
    (hdel : jsTruthy (domain.metadata.bind ObjectMeta.deletionTimestamp) = false)
    (hfin : ensureFinalizer domain env.finalizerAddPatch = .ok ())
    (hext : jsTruthy (domain.status.bind DomainStatus.externalReferenceId) = false)
    (hmp : metaFieldsPresent domain = true)
    (hcreate : env.createEnv.create = .error e)
    (href : env.refetched = .ok (some domain))
    (herrw : env.errorStatusUpdate = .ok ()) :
    reconcile env now errNow =
      { result := { requeue := some true, requeueAfter := some 5000 },
        writes := [{ domain.status.getD {} with
          phase := some "Error",
          conditions := some (updateCondition
            ((domain.status.bind DomainStatus.conditions).getD [])
            "Error" "True" "ReconcileError" (thrownMessage e) errNow),
          lastReconcileTime := some errNow }] }
    ∧ jsTruthy (domain.status.getD {}).externalReferenceId = false
    ∧ (∀ d2 : Domain, d2.metadata = domain.metadata →
        generateExternalReferenceId d2 = generateExternalReferenceId domain) := by
  refine ⟨?_, ?_, ?_⟩
  · simp [reconcile, hf, hdel, hfin, reconcileDomain, hext, generateExternalReferenceId,
      hmp, hcreate, href, herrw]
  · cases hs : domain.status with
    | none => simp [jsTruthy]
    | some st => rw [hs] at hext; simpa using hext
  · intro d2 hm
    exact generateExternalReferenceId_deterministic d2 domain (by rw [hm])

/-- C6 witness: the amended theorem applied to a concrete fresh domain whose
create fails with 503. -/
theorem c6_create_failure_amended_witness :
    reconcile
      { fetched := some
          { metadata := some { nspace := some "ns", name := "w1", uid := some "abcdefgh1234",
                               finalizers := some ["takaro.io/domain-protection"] } },
        createEnv := { create := .error (.takaroClientError "boom" (some 503)) },
        refetched := .ok (some
          { metadata := some { nspace := some "ns", name := "w1", uid := some "abcdefgh1234",
                               finalizers := some ["takaro.io/domain-protection"] } }) }
      "t1" "t2" =
      { result := { requeue := some true, requeueAfter := some 5000 },
        writes := [{ phase := some "Error",
                     conditions := some [{ type := "Error", status := "True",
                                           lastTransitionTime := "t2",
                                           reason := "ReconcileError", message := "boom" }],
                     lastReconcileTime := some "t2" }] } := by
  have h := (c6_create_failure_amended
    { fetched := some
        { metadata := some { nspace := some "ns", name := "w1", uid := some "abcdefgh1234",
                             finalizers := some ["takaro.io/domain-protection"] } },
      createEnv := { create := .error (.takaroClientError "boom" (some 503)) },
      refetched := .ok (some
        { metadata := some { nspace := some "ns", name := "w1", uid := some "abcdefgh1234",
                             finalizers := some ["takaro.io/domain-protection"] } }) }
    { metadata := some { nspace := some "ns", name := "w1", uid := some "abcdefgh1234",
                         finalizers := some ["takaro.io/domain-protection"] } }
    (.takaroClientError "boom" (some 503)) "t1" "t2"
    rfl rfl rfl rfl (by decide) rfl rfl rfl).1
  rw [h]
  simp [updateCondition, thrownMessage]

/-- C8, confirmed.  The reconcile entry point: a 404 from the resource get
is mapped to `null` rather than an exception; a missing resource yields the
empty no-op outcome; a successful non-deletion pass persists the updated
status and returns `{requeue: true, requeueAfter: 60000}`; a failing pass
best-effort-persists phase `Error` with an `Error=True/ReconcileError`
condition on the refetched resource and returns
`{requeue: true, requeueAfter: 5000}`. -/
theorem c8_reconcile_contract (env : ReconcileEnv) (now errNow : String) :
    (∀ e : ApiError, e.statusCode = some 404 → getResource (.error e) = .ok none)
    ∧ (env.fetched = none → reconcile env now errNow = { result := {}, writes := [] })
    ∧ (∀ domain st,
        env.fetched = some domain →
        jsTruthy (domain.metadata.bind ObjectMeta.deletionTimestamp) = false →
        ensureFinalizer domain env.finalizerAddPatch = .ok () →
        reconcileDomain domain env.createEnv now = .ok st →
        env.statusUpdate = .ok () →
        reconcile env now errNow =
          { result := { requeue := some true, requeueAfter := some 60000 },
            writes := [st] })
    ∧ (∀ domain d err,
        env.fetched = some domain →
        jsTruthy (domain.metadata.bind ObjectMeta.deletionTimestamp) = false →
        ensureFinalizer domain env.finalizerAddPatch = .ok () →
        reconcileDomain domain env.createEnv now = .error err →
        env.refetched = .ok (some d) →
        env.errorStatusUpdate = .ok () →
        reconcile env now errNow =
          { result := { requeue := some true, requeueAfter := some 5000 },
            writes := [{ d.status.getD {} with
              phase := some "Error",
              conditions := some (updateCondition
                ((d.status.bind DomainStatus.conditions).getD [])
                "Error" "True" "ReconcileError" (thrownMessage err) errNow),
              lastReconcileTime := some errNow }] }) := by
  refine ⟨?_, ?_, ?_, ?_⟩
  · intro e he
    simp [getResource, he]
  · intro hf
    simp [reconcile, hf]
  · intro domain st hf hdel hfin hrd hsu
    simp [reconcile, hf, hdel, hfin, hrd, hsu]
  · intro domain d err hf hdel hfin hrd href herrw
    simp [reconcile, hf, hdel, hfin, hrd, href, herrw]

/-- C8 witness: the contract applied at concrete inputs — a concrete 404
get, a missing resource, and a steady-state success pass. -/
theorem c8_reconcile_contract_witness :
    getResource (.error { statusCode := some 404 }) = .ok none
    ∧ reconcile { fetched := none } "t1" "t2" = { result := {}, writes := [] }
    ∧ reconcile
        { fetched := some
            { metadata := some { nspace := some "ns", name := "d", uid := some "u",
                                 generation := some 3,
                                 finalizers := some ["takaro.io/domain-protection"] },
              status := some { phase := some "Ready", externalReferenceId := some "ext",
                               observedGeneration := some 3 } } }
        "t1" "t2" =
      { result := { requeue := some true, requeueAfter := some 60000 },
        writes := [{ phase := some "Ready", conditions := some [],
                     externalReferenceId := some "ext",
                     lastReconcileTime := some "t1", observedGeneration := some 3 }] } := by
  refine ⟨(c8_reconcile_contract { fetched := none } "t1" "t2").1
      { statusCode := some 404 } rfl,
    (c8_reconcile_contract { fetched := none } "t1" "t2").2.1 rfl, ?_⟩
  exact (c8_reconcile_contract
    { fetched := some
        { metadata := some { nspace := some "ns", name := "d", uid := some "u",
                             generation := some 3,
                             finalizers := some ["takaro.io/domain-protection"] },
          status := some { phase := some "Ready", externalReferenceId := some "ext",
                           observedGeneration := some 3 } } }
    "t1" "t2").2.2.1
    { metadata := some { nspace := some "ns", name := "d", uid := some "u",
                         generation := some 3,
                         finalizers := some ["takaro.io/domain-protection"] },
      status := some { phase := some "Ready", externalReferenceId := some "ext",
                       observedGeneration := some 3 } }
    { phase := some "Ready", conditions := some [], externalReferenceId := some "ext",
      lastReconcileTime := some "t1", observedGeneration := some 3 }
    rfl rfl rfl rfl rfl
